import Mathlib

/-!
Shallow embedding of the team-betting contract `src/contract.py` (class
`TeamBettingContract`).

Modelling conventions:
* NEAR token amounts (yoctoNEAR), point balances and block timestamps are
  nonnegative machine integers at runtime (`attached_deposit` is an unsigned
  128-bit value, `block_timestamp` a nanosecond counter), so they are
  embedded as `Nat`.  Python `//` on nonnegative operands coincides with
  `Nat` division.
* Call parameters that are raw Python `int`s (`pot_size`, `game_duration`,
  `commission_rate` of `start_game`, `percent` of `throw_points`) are
  embedded as `Int` so that the sign checks of the source are meaningful;
  after validation the stored values are nonnegative and are kept as `Nat`.
* Python `dict`s keyed by account id are embedded as association lists
  (`List (String × α)`) with first-occurrence lookup and in-place update,
  which agrees with `dict` semantics on every state reachable from
  `initialize` (keys occur at most once).
* `block_timestamp` is monotone and `game_start_time` is always a previous
  block timestamp, so `block_timestamp - game_start_time` never underflows;
  `Nat` subtraction is therefore faithful for the elapsed-time computation.
* Each `@call` entry point becomes a function
  `env → state → Except String state`; raising an exception in the source
  (which aborts the call with no state change) becomes `.error msg`.
-/

namespace Nexora

/-- One NEAR = 10^24 yoctoNEAR (`ONE_NEAR` from near_sdk_py). -/
def ONE_NEAR : Nat := 10 ^ 24

/-- Constant `EARLY_BIRD_RATE = 32` (contract.py line 13). -/
def EARLY_BIRD_RATE : Nat := 32

/-- Constant `POINT_DECAY_RATES = [24, 23, 22, 21, 20, 19, 18, 17, 16, 15]` (line 14). -/
def POINT_DECAY_RATES : List Nat := [24, 23, 22, 21, 20, 19, 18, 17, 16, 15]

/-- Constant `FIRST_WINDOW_HOURS = 3` (line 15). -/
def FIRST_WINDOW_HOURS : Nat := 3

/-- Constant `SECOND_WINDOW_HOURS = 6` (line 16). -/
def SECOND_WINDOW_HOURS : Nat := 6

/-- Constant `MAX_THROWS_PER_GAME = 2` (line 17). -/
def MAX_THROWS_PER_GAME : Nat := 2

/-- A per-player bet record `{"amount": ..., "points": ...}`. -/
structure BetRecord where
  amount : Nat
  points : Nat
deriving DecidableEq

/-- Python `d.get(k)` / `k in d` on a string-keyed dict. -/
def dget? {α : Type} : List (String × α) → String → Option α
  | [], _ => none
  | (k, v) :: rest, u => if k = u then some v else dget? rest u

/-- Python `d.get(k, dflt)`. -/
def dgetD {α : Type} (d : List (String × α)) (u : String) (dflt : α) : α :=
  (dget? d u).getD dflt

/-- Python `d[k] = v`: overwrite the existing entry, else add a new one. -/
def dset {α : Type} : List (String × α) → String → α → List (String × α)
  | [], u, x => [(u, x)]
  | (k, v) :: rest, u, x =>
      if k = u then (k, x) :: rest else (k, v) :: dset rest u x

/-- A team's bets dict (`team_a_bets` / `team_b_bets`). -/
abbrev BetsMap := List (String × BetRecord)

/-- The `withdrawable` dict. -/
abbrev Ledger := List (String × Nat)

/-- Source line `withdraw[uid] = withdraw.get(uid, 0) + amt`. -/
def creditW (w : Ledger) (u : String) (amt : Nat) : Ledger :=
  dset w u (dgetD w u 0 + amt)

/-- Sum of `b["amount"]` over a bets dict. -/
def sumAmount (bets : BetsMap) : Nat := (bets.map (fun ub => ub.2.amount)).sum

/-- Sum of `b["points"]` over a bets dict. -/
def sumPoints (bets : BetsMap) : Nat := (bets.map (fun ub => ub.2.points)).sum

/-- Total of all pending balances in a `withdrawable` dict. -/
def sumW (w : Ledger) : Nat := (w.map (fun uv => uv.2)).sum

/-- The whole `self.storage` record of `TeamBettingContract`. -/
structure ContractState where
  admin : String
  timer_bot : String
  paused : Bool
  game_active : Bool
  game_started : Bool
  game_start_time : Nat
  pot_size : Nat
  commission_rate : Nat
  game_duration : Nat
  force_refund_mode : Bool
  winning_team : String
  withdrawable : Ledger
  team_a_bets : BetsMap
  team_b_bets : BetsMap
  team_a_points : Nat
  team_b_points : Nat
  team_a_total_amount : Nat
  team_b_total_amount : Nat
  banned_players : List (String × Bool)
  transfer_counts : List (String × Nat)
  last_transfer_time : List (String × Nat)
  point_rates : List Nat
deriving DecidableEq

/-- The `@init` constructor of the contract (lines 22-55); its Python name is
a reserved word in Lean, hence the changed name. -/
def initContract (admin_id : String) (timer_bot_id : Option String) : ContractState where
  admin := admin_id
  timer_bot := timer_bot_id.getD ""
  paused := false
  game_active := false
  game_started := false
  game_start_time := 0
  pot_size := 0
  commission_rate := 10
  game_duration := 3600
  force_refund_mode := false
  winning_team := ""
  withdrawable := []
  team_a_bets := []
  team_b_bets := []
  team_a_points := 0
  team_b_points := 0
  team_a_total_amount := 0
  team_b_total_amount := 0
  banned_players := []
  transfer_counts := []
  last_transfer_time := []
  point_rates := POINT_DECAY_RATES

/-- Source expression `rates[h] if h < len(rates) else 1` (line 192). -/
def pointRate (rates : List Nat) (h : Nat) : Nat :=
  if hlt : h < rates.length then rates.get ⟨h, hlt⟩ else 1

/-- The rate computation of `bet_on_team` (lines 186-192): early-bird rate
while the timer is not armed, otherwise the decay table indexed by whole
elapsed hours. -/
def betRate (game_started : Bool) (rates : List Nat) (elapsed_ns : Nat) : Nat :=
  if game_started then pointRate rates (elapsed_ns / (60 * 60 * 1000000000))
  else EARLY_BIRD_RATE

/-- The bets-dict upsert of `bet_on_team` (lines 200-208): accumulate into an
existing record, else create a fresh one. -/
def betUpsert (bets : BetsMap) (user : String) (dep pts : Nat) : BetsMap :=
  match dget? bets user with
  | some r => dset bets user ⟨r.amount + dep, r.points + pts⟩
  | none => dset bets user ⟨dep, pts⟩

/-- Helper `_maybe_auto_start_timer` (lines 307-315) together with
`_start_timer_internal` (lines 317-324). -/
def maybeAutoStartTimer (ts : Nat) (s : ContractState) : ContractState :=
  if s.game_started then s
  else
    let thresh := (s.pot_size * (100 + s.commission_rate) / 100) * ONE_NEAR
    if thresh ≤ s.team_a_total_amount ∧ thresh ≤ s.team_b_total_amount then
      { s with game_started := true, game_start_time := ts }
    else s

/-- Entry point `bet_on_team(team)` (lines 173-217).  `caller` is the predecessor account,
`deposit` the attached yoctoNEAR, `ts` the block timestamp. -/
def bet_on_team (caller : String) (deposit ts : Nat) (team : String)
    (s : ContractState) : Except String ContractState :=
  if s.paused then .error "Contract is paused"
  else if ¬ s.game_active then .error "No active game"
  else if s.force_refund_mode then .error "Refund mode"
  else if ¬ (team = "A" ∨ team = "B") then .error "Team must be A or B"
  else if dgetD s.banned_players caller false then .error "Player is banned"
  else if deposit < ONE_NEAR / 2 then .error "Min 0.5 NEAR"
  else
    let rate := betRate s.game_started s.point_rates (ts - s.game_start_time)
    let pts := (deposit / ONE_NEAR) * rate
    if team = "A" then
      .ok (maybeAutoStartTimer ts
        { s with
          team_a_bets := betUpsert s.team_a_bets caller deposit pts
          team_a_points := s.team_a_points + pts
          team_a_total_amount := s.team_a_total_amount + deposit })
    else
      .ok (maybeAutoStartTimer ts
        { s with
          team_b_bets := betUpsert s.team_b_bets caller deposit pts
          team_b_points := s.team_b_points + pts
          team_b_total_amount := s.team_b_total_amount + deposit })

/-- The time-window table of `throw_points` (lines 249-257): `some (lo, hi)`
for an open window, `none` once the window has closed. -/
def throwWindow (elapsed : Nat) : Option (Nat × Nat) :=
  if elapsed < FIRST_WINDOW_HOURS then some (60, 90)
  else if elapsed < SECOND_WINDOW_HOURS then some (20, 40)
  else none

/-- The quota, window and percent-range checks of `throw_points`
(lines 244-260).  Returns the validated percentage as a `Nat` (the range
check guarantees `percent ≥ 20`, so `Int.toNat` loses nothing). -/
def throwChecks (caller : String) (ts : Nat) (percent : Int)
    (s : ContractState) : Except String Nat :=
  if MAX_THROWS_PER_GAME ≤ dgetD s.transfer_counts caller 0 then
    .error "Limit reached"
  else
    match throwWindow ((ts - s.game_start_time) / (60 * 60 * 1000000000)) with
    | none => .error "Window closed"
    | some (lo, hi) =>
        if (lo : Int) ≤ percent ∧ percent ≤ (hi : Int) then .ok percent.toNat
        else .error "Percent outside allowed range"

/-- Entry point `throw_points(percent)` (lines 220-304). -/
def throw_points (caller : String) (ts : Nat) (percent : Int)
    (s : ContractState) : Except String ContractState :=
  if s.paused then .error "Contract is paused"
  else if ¬ s.game_started then .error "Timer not started"
  else if dgetD s.banned_players caller false then .error "Player is banned"
  else
    match dget? s.team_a_bets caller, dget? s.team_b_bets caller with
    | some _, some _ => .error "Cannot throw points - bet on both teams"
    | none, none => .error "No bet"
    | some r, none =>
        match throwChecks caller ts percent s with
        | .error e => .error e
        | .ok pct =>
            let mv := r.points * pct / 100
            if mv = 0 ∨ r.points - mv < 1 then .error "Invalid amount"
            else
              .ok { s with
                team_a_bets := dset s.team_a_bets caller ⟨r.amount, r.points - mv⟩
                team_a_points := s.team_a_points - mv
                team_b_points := s.team_b_points + mv
                transfer_counts :=
                  dset s.transfer_counts caller (dgetD s.transfer_counts caller 0 + 1)
                last_transfer_time := dset s.last_transfer_time caller ts }
    | none, some r =>
        match throwChecks caller ts percent s with
        | .error e => .error e
        | .ok pct =>
            let mv := r.points * pct / 100
            if mv = 0 ∨ r.points - mv < 1 then .error "Invalid amount"
            else
              .ok { s with
                team_b_bets := dset s.team_b_bets caller ⟨r.amount, r.points - mv⟩
                team_b_points := s.team_b_points - mv
                team_a_points := s.team_a_points + mv
                transfer_counts :=
                  dset s.transfer_counts caller (dgetD s.transfer_counts caller 0 + 1)
                last_transfer_time := dset s.last_transfer_time caller ts }

/-- Entry point `start_game(pot_size, game_duration, commission_rate)` (lines 120-161).
Note: line 152 of the source resets `withdrawable` to `{}` along with the
per-game state. -/
def start_game (caller : String) (pot_size game_duration commission_rate : Int)
    (s : ContractState) : Except String ContractState :=
  if caller ≠ s.admin then .error "Only admin"
  else if s.paused then .error "Contract is paused"
  else if s.game_active then .error "Game already active"
  else if pot_size ≤ 0 then .error "Pot size must be greater than zero"
  else if game_duration < 60 then .error "Game duration must be at least 60 seconds"
  else if commission_rate < 0 ∨ 50 < commission_rate then
    .error "Commission rate must be between 0 and 50 percent"
  else
    .ok { s with
      pot_size := pot_size.toNat
      game_duration := game_duration.toNat
      commission_rate := commission_rate.toNat
      game_active := true
      game_started := false
      game_start_time := 0
      force_refund_mode := false
      team_a_bets := []
      team_b_bets := []
      team_a_points := 0
      team_b_points := 0
      team_a_total_amount := 0
      team_b_total_amount := 0
      winning_team := ""
      withdrawable := []
      transfer_counts := []
      last_transfer_time := [] }

/-- The refund loop body of `force_end_game_refund` (lines 339-348) over one
team's bets dict. -/
def refundTeam (bets : BetsMap) (w : Ledger) : Ledger :=
  bets.foldl (fun w ub => creditW w ub.1 ub.2.amount) w

/-- Entry point `force_end_game_refund()` (lines 327-356). -/
def force_end_game_refund (caller : String) (s : ContractState) :
    Except String ContractState :=
  if caller ≠ s.admin then .error "Only admin"
  else if s.paused then .error "Contract is paused"
  else if ¬ s.game_active then .error "No active game"
  else
    .ok { s with
      game_active := false
      force_refund_mode := true
      withdrawable := refundTeam s.team_b_bets (refundTeam s.team_a_bets s.withdrawable) }

/-- Source line `share = (b["points"] * pot) // win_total_pts if win_total_pts else 0`
(line 401). -/
def winnerShare (win_total_pts pot : Nat) (r : BetRecord) : Nat :=
  if win_total_pts = 0 then 0 else r.points * pot / win_total_pts

/-- Winner-payout loop (lines 400-406): each winner is credited
`b["amount"] + share`. -/
def creditWinners (bets : BetsMap) (win_total_pts pot : Nat) (w : Ledger) : Ledger :=
  bets.foldl (fun w ub => creditW w ub.1 (ub.2.amount + winnerShare win_total_pts pot ub.2)) w

/-- Source line `refund = b["amount"] - (b["amount"] * total_to_pay) // lose_total_amt`
(lines 411-412). -/
def loserRefund (total_to_pay lose_total_amt : Nat) (r : BetRecord) : Nat :=
  r.amount - r.amount * total_to_pay / lose_total_amt

/-- Loser-refund loop (lines 410-416). -/
def creditLosers (bets : BetsMap) (total_to_pay lose_total_amt : Nat) (w : Ledger) : Ledger :=
  bets.foldl (fun w ub => creditW w ub.1 (loserRefund total_to_pay lose_total_amt ub.2)) w

/-- Helper `_distribute_payouts` (lines 378-427).  (`win_total_amt` of line 389 is
computed by the source only for logging and is omitted.) -/
def distributePayouts (s : ContractState) : ContractState :=
  let pot := s.pot_size * ONE_NEAR
  let win_bets := if s.winning_team = "A" then s.team_a_bets else s.team_b_bets
  let lose_bets := if s.winning_team = "B" then s.team_a_bets else s.team_b_bets
  let win_total_pts := sumPoints win_bets
  let lose_total_amt := sumAmount lose_bets
  let commission := pot * s.commission_rate / 100
  let total_to_pay := pot + commission
  let w1 := creditWinners win_bets win_total_pts pot s.withdrawable
  let w2 := if total_to_pay ≤ lose_total_amt then
      creditLosers lose_bets total_to_pay lose_total_amt w1
    else w1
  { s with withdrawable := creditW w2 s.admin commission }

/-- Entry point `end_game()` (lines 359-376).  Note: the source checks `game_started`
but not `game_active`. -/
def end_game (caller : String) (s : ContractState) : Except String ContractState :=
  if ¬ (caller = s.admin ∨ caller = s.timer_bot) then .error "Only admin or timer bot"
  else if ¬ s.game_started then .error "Timer not started"
  else if s.team_a_points = s.team_b_points then .error "Tie - refund or extend"
  else
    .ok (distributePayouts
      { s with
        winning_team := if s.team_a_points < s.team_b_points then "A" else "B"
        game_active := false })

/-! ### Association-list lemmas -/

theorem dget?_cons_self {α : Type} (k : String) (v : α) (rest : List (String × α)) :
    dget? ((k, v) :: rest) k = some v := by
  simp [dget?]

theorem dget?_cons_ne {α : Type} (k : String) (v : α) (rest : List (String × α))
    (u : String) (h : k ≠ u) : dget? ((k, v) :: rest) u = dget? rest u := by
  simp [dget?, h]

theorem dget?_dset_self {α : Type} (d : List (String × α)) (u : String) (x : α) :
    dget? (dset d u x) u = some x := by
  induction d with
  | nil => simp [dset, dget?]
  | cons kv rest ih =>
      obtain ⟨k, v⟩ := kv
      by_cases hk : k = u
      · simp [dset, dget?, hk]
      · simp [dset, dget?, hk, ih]

theorem dget?_dset_ne {α : Type} (d : List (String × α)) (u w : String) (x : α)
    (h : w ≠ u) : dget? (dset d u x) w = dget? d w := by
  have huw : ¬ u = w := fun hh => h hh.symm
  induction d with
  | nil => simp [dset, dget?, huw]
  | cons kv rest ih =>
      obtain ⟨k, v⟩ := kv
      by_cases hk : k = u
      · subst hk
        have hkw : ¬ k = w := huw
        simp [dset, dget?, hkw]
      · simp only [dset, if_neg hk, dget?]
        by_cases hw : k = w
        · simp [hw]
        · simp [hw, ih]

theorem creditW_cons_self (k : String) (v : Nat) (rest : Ledger) (a : Nat) :
    creditW ((k, v) :: rest) k a = (k, v + a) :: rest := by
  simp [creditW, dgetD, dget?, dset]

theorem creditW_cons_ne (k : String) (v : Nat) (rest : Ledger) (u : String) (a : Nat)
    (h : k ≠ u) : creditW ((k, v) :: rest) u a = (k, v) :: creditW rest u a := by
  simp [creditW, dgetD, dget?, dset, h]

theorem sumW_nil : sumW [] = 0 := rfl

theorem sumW_cons (k : String) (v : Nat) (rest : Ledger) :
    sumW ((k, v) :: rest) = v + sumW rest := by
  simp [sumW]

theorem sumW_creditW (w : Ledger) (u : String) (a : Nat) :
    sumW (creditW w u a) = sumW w + a := by
  induction w with
  | nil => simp [creditW, dgetD, dget?, dset, sumW]
  | cons kv rest ih =>
      obtain ⟨k, v⟩ := kv
      by_cases hk : k = u
      · subst hk
        rw [creditW_cons_self, sumW_cons, sumW_cons]
        omega
      · rw [creditW_cons_ne _ _ _ _ _ hk, sumW_cons, sumW_cons, ih]
        omega

theorem getW_creditW_self (w : Ledger) (u : String) (a : Nat) :
    dgetD (creditW w u a) u 0 = dgetD w u 0 + a := by
  simp [creditW, dgetD, dget?_dset_self]

theorem getW_creditW_ne (w : Ledger) (u v : String) (a : Nat) (h : v ≠ u) :
    dgetD (creditW w u a) v 0 = dgetD w v 0 := by
  simp [creditW, dgetD, dget?_dset_ne _ _ _ _ h]

theorem sumPoints_nil : sumPoints [] = 0 := rfl

theorem sumPoints_cons (k : String) (v : BetRecord) (rest : BetsMap) :
    sumPoints ((k, v) :: rest) = v.points + sumPoints rest := by
  simp [sumPoints]

theorem sumAmount_nil : sumAmount [] = 0 := rfl

theorem sumAmount_cons (k : String) (v : BetRecord) (rest : BetsMap) :
    sumAmount ((k, v) :: rest) = v.amount + sumAmount rest := by
  simp [sumAmount]

theorem betUpsert_cons_self (u : String) (r : BetRecord) (rest : BetsMap)
    (dep pts : Nat) :
    betUpsert ((u, r) :: rest) u dep pts =
      (u, ⟨r.amount + dep, r.points + pts⟩) :: rest := by
  simp [betUpsert, dget?, dset]

theorem betUpsert_cons_ne (k : String) (v : BetRecord) (rest : BetsMap)
    (u : String) (dep pts : Nat) (h : k ≠ u) :
    betUpsert ((k, v) :: rest) u dep pts = (k, v) :: betUpsert rest u dep pts := by
  simp only [betUpsert, dget?, if_neg h]
  cases dget? rest u <;> simp [dset, h]

theorem sumPoints_betUpsert (bets : BetsMap) (u : String) (dep pts : Nat) :
    sumPoints (betUpsert bets u dep pts) = sumPoints bets + pts := by
  induction bets with
  | nil => simp [betUpsert, dget?, dset, sumPoints]
  | cons kv rest ih =>
      obtain ⟨k, v⟩ := kv
      by_cases hk : k = u
      · subst hk
        rw [betUpsert_cons_self, sumPoints_cons, sumPoints_cons]
        dsimp only
        omega
      · rw [betUpsert_cons_ne _ _ _ _ _ _ hk, sumPoints_cons, sumPoints_cons, ih]
        omega

theorem sumAmount_betUpsert (bets : BetsMap) (u : String) (dep pts : Nat) :
    sumAmount (betUpsert bets u dep pts) = sumAmount bets + dep := by
  induction bets with
  | nil => simp [betUpsert, dget?, dset, sumAmount]
  | cons kv rest ih =>
      obtain ⟨k, v⟩ := kv
      by_cases hk : k = u
      · subst hk
        rw [betUpsert_cons_self, sumAmount_cons, sumAmount_cons]
        dsimp only
        omega
      · rw [betUpsert_cons_ne _ _ _ _ _ _ hk, sumAmount_cons, sumAmount_cons, ih]
        omega

theorem sumPoints_dset (bets : BetsMap) (u : String) (r x : BetRecord)
    (h : dget? bets u = some r) :
    sumPoints (dset bets u x) + r.points = sumPoints bets + x.points := by
  induction bets with
  | nil => simp [dget?] at h
  | cons kv rest ih =>
      obtain ⟨k, v⟩ := kv
      by_cases hk : k = u
      · subst hk
        rw [dget?_cons_self] at h
        injection h with h
        subst h
        simp only [dset, if_pos rfl, if_true, sumPoints_cons]
        omega
      · rw [dget?_cons_ne _ _ _ _ hk] at h
        simp only [dset, if_neg hk, sumPoints_cons]
        have := ih h
        omega

theorem sumAmount_dset (bets : BetsMap) (u : String) (r x : BetRecord)
    (h : dget? bets u = some r) :
    sumAmount (dset bets u x) + r.amount = sumAmount bets + x.amount := by
  induction bets with
  | nil => simp [dget?] at h
  | cons kv rest ih =>
      obtain ⟨k, v⟩ := kv
      by_cases hk : k = u
      · subst hk
        rw [dget?_cons_self] at h
        injection h with h
        subst h
        simp only [dset, if_pos rfl, if_true, sumAmount_cons]
        omega
      · rw [dget?_cons_ne _ _ _ _ hk] at h
        simp only [dset, if_neg hk, sumAmount_cons]
        have := ih h
        omega

theorem points_le_sumPoints (bets : BetsMap) (u : String) (r : BetRecord)
    (h : dget? bets u = some r) : r.points ≤ sumPoints bets := by
  induction bets with
  | nil => simp [dget?] at h
  | cons kv rest ih =>
      obtain ⟨k, v⟩ := kv
      by_cases hk : k = u
      · subst hk
        rw [dget?_cons_self] at h
        injection h with h
        subst h
        rw [sumPoints_cons]
        omega
      · rw [dget?_cons_ne _ _ _ _ hk] at h
        rw [sumPoints_cons]
        have := ih h
        omega

/-! ### Fold-credit lemmas -/

theorem sumW_foldl_credit (f : String × BetRecord → Nat) (bets : BetsMap) (w : Ledger) :
    sumW (bets.foldl (fun w ub => creditW w ub.1 (f ub)) w) =
      sumW w + (bets.map f).sum := by
  induction bets generalizing w with
  | nil => simp
  | cons ub rest ih =>
      rw [List.foldl_cons, ih, sumW_creditW, List.map_cons, List.sum_cons]
      omega

theorem getW_foldl_credit_notmem (f : String × BetRecord → Nat) (bets : BetsMap)
    (w : Ledger) (u : String) (h : ∀ ub ∈ bets, ub.1 ≠ u) :
    dgetD (bets.foldl (fun w ub => creditW w ub.1 (f ub)) w) u 0 = dgetD w u 0 := by
  induction bets generalizing w with
  | nil => rfl
  | cons ub rest ih =>
      rw [List.foldl_cons, ih _ (fun x hx => h x (List.mem_cons_of_mem _ hx))]
      exact getW_creditW_ne _ _ _ _ (fun hh => h ub (List.mem_cons_self _ _) hh.symm)

theorem getW_foldl_credit_mem (f : String × BetRecord → Nat) (bets : BetsMap)
    (w : Ledger) (u : String) (r : BetRecord)
    (hnd : (bets.map Prod.fst).Nodup) (h : dget? bets u = some r) :
    dgetD (bets.foldl (fun w ub => creditW w ub.1 (f ub)) w) u 0 =
      dgetD w u 0 + f (u, r) := by
  induction bets generalizing w with
  | nil => simp [dget?] at h
  | cons ub rest ih =>
      obtain ⟨k, v⟩ := ub
      rw [List.map_cons, List.nodup_cons] at hnd
      by_cases hk : k = u
      · subst hk
        rw [dget?_cons_self] at h
        injection h with h
        subst h
        rw [List.foldl_cons]
        have hrest : ∀ ub ∈ rest, ub.1 ≠ k := by
          intro x hx heq
          have hmem : x.1 ∈ rest.map Prod.fst := List.mem_map_of_mem Prod.fst hx
          rw [heq] at hmem
          exact hnd.1 hmem
        rw [getW_foldl_credit_notmem _ _ _ _ hrest, getW_creditW_self]
      · rw [dget?_cons_ne _ _ _ _ hk] at h
        rw [List.foldl_cons, ih _ hnd.2 h, getW_creditW_ne _ _ _ _ (fun hh => hk hh.symm)]

/-! ### Arithmetic bounds for settlement -/

theorem sum_div_le (l : List Nat) (d : Nat) : (l.map (fun a => a / d)).sum ≤ l.sum / d := by
  induction l with
  | nil => simp
  | cons a rest ih =>
      rw [List.map_cons, List.sum_cons, List.sum_cons]
      calc a / d + (rest.map (fun a => a / d)).sum ≤ a / d + rest.sum / d := by omega
        _ ≤ (a + rest.sum) / d := Nat.add_div_le_add_div _ _ _

theorem shares_sum_le_pot (bets : BetsMap) (pot : Nat) :
    (bets.map (fun ub => winnerShare (sumPoints bets) pot ub.2)).sum ≤ pot := by
  by_cases hP : sumPoints bets = 0
  · simp [winnerShare, hP]
  · have h1 : (bets.map (fun ub => winnerShare (sumPoints bets) pot ub.2)).sum =
        ((bets.map (fun ub => ub.2.points * pot)).map (fun a => a / sumPoints bets)).sum := by
      rw [List.map_map]
      simp [winnerShare, hP, Function.comp_def]
    rw [h1]
    calc ((bets.map (fun ub => ub.2.points * pot)).map (fun a => a / sumPoints bets)).sum
        ≤ (bets.map (fun ub => ub.2.points * pot)).sum / sumPoints bets :=
          sum_div_le _ _
      _ = sumPoints bets * pot / sumPoints bets := by
          rw [List.sum_map_mul_right]; rfl
      _ = pot := Nat.mul_div_cancel_left _ (Nat.pos_of_ne_zero hP)

theorem refunds_sum_le (bets : BetsMap) (T L : Nat) :
    (bets.map (fun ub => loserRefund T L ub.2)).sum ≤ sumAmount bets :=
  List.sum_le_sum (fun _ _ => Nat.sub_le _ _)

/-! ### Frame lemmas for the internal helpers -/

theorem maybeAutoStartTimer_frame (ts : Nat) (s : ContractState) :
    (maybeAutoStartTimer ts s).team_a_bets = s.team_a_bets ∧
    (maybeAutoStartTimer ts s).team_b_bets = s.team_b_bets ∧
    (maybeAutoStartTimer ts s).team_a_points = s.team_a_points ∧
    (maybeAutoStartTimer ts s).team_b_points = s.team_b_points ∧
    (maybeAutoStartTimer ts s).team_a_total_amount = s.team_a_total_amount ∧
    (maybeAutoStartTimer ts s).team_b_total_amount = s.team_b_total_amount ∧
    (maybeAutoStartTimer ts s).withdrawable = s.withdrawable ∧
    (maybeAutoStartTimer ts s).banned_players = s.banned_players := by
  unfold maybeAutoStartTimer
  dsimp only
  split
  · exact ⟨rfl, rfl, rfl, rfl, rfl, rfl, rfl, rfl⟩
  · split <;> exact ⟨rfl, rfl, rfl, rfl, rfl, rfl, rfl, rfl⟩

theorem distributePayouts_frame (s : ContractState) :
    (distributePayouts s).team_a_bets = s.team_a_bets ∧
    (distributePayouts s).team_b_bets = s.team_b_bets ∧
    (distributePayouts s).team_a_points = s.team_a_points ∧
    (distributePayouts s).team_b_points = s.team_b_points ∧
    (distributePayouts s).team_a_total_amount = s.team_a_total_amount ∧
    (distributePayouts s).team_b_total_amount = s.team_b_total_amount :=
  ⟨rfl, rfl, rfl, rfl, rfl, rfl⟩

theorem dget?_betUpsert_self (bets : BetsMap) (u : String) (dep pts : Nat) :
    dget? (betUpsert bets u dep pts) u =
      some ⟨((dget? bets u).map BetRecord.amount).getD 0 + dep,
            ((dget? bets u).map BetRecord.points).getD 0 + pts⟩ := by
  cases hb : dget? bets u with
  | none =>
      simp only [betUpsert, hb]
      rw [dget?_dset_self]
      simp
  | some r =>
      simp only [betUpsert, hb]
      rw [dget?_dset_self]
      simp

theorem throwWindow_lo_ge (elapsed lo hi : Nat)
    (h : throwWindow elapsed = some (lo, hi)) : 20 ≤ lo ∧ hi ≤ 90 := by
  unfold throwWindow at h
  split at h
  · simp only [Option.some.injEq, Prod.mk.injEq] at h
    omega
  · split at h
    · simp only [Option.some.injEq, Prod.mk.injEq] at h
      omega
    · exact absurd h (by simp)

theorem throwChecks_ok (caller : String) (ts : Nat) (percent : Int)
    (s : ContractState) (pct : Nat)
    (h : throwChecks caller ts percent s = .ok pct) :
    pct = percent.toNat ∧ 20 ≤ percent ∧ percent ≤ 90 := by
  unfold throwChecks at h
  split at h
  · exact absurd h (by simp)
  · split at h
    · exact absurd h (by simp)
    · rename_i lo hi heq
      split at h
      · rename_i hrange
        injection h with h
        obtain ⟨hlo, hhi⟩ := throwWindow_lo_ge _ _ _ heq
        refine ⟨h.symm, ?_, ?_⟩
        · calc (20 : Int) ≤ (lo : Int) := by exact_mod_cast hlo
            _ ≤ percent := hrange.1
        · calc percent ≤ (hi : Int) := hrange.2
            _ ≤ 90 := by exact_mod_cast hhi
      · exact absurd h (by simp)

/-! ### Claim theorems -/

/-- C7: the point rate applied to a bet is a pure function of elapsed time and
whether the timer is armed: if the timer has not been armed the rate is the
early-bird constant 32; otherwise with `h = elapsed_ns / (3600 * 10^9)`, the
rate is the `h`-th entry of `[24,23,22,21,20,19,18,17,16,15]` when `h < 10`,
and `1` when `h ≥ 10`. -/
theorem point_rate_schedule (armed : Bool) (elapsed_ns : Nat) :
    (armed = false → betRate armed POINT_DECAY_RATES elapsed_ns = 32) ∧
    (armed = true →
      (elapsed_ns / (3600 * 1000000000) < 10 →
        betRate armed POINT_DECAY_RATES elapsed_ns =
          [24, 23, 22, 21, 20, 19, 18, 17, 16, 15].getD
            (elapsed_ns / (3600 * 1000000000)) 0) ∧
      (10 ≤ elapsed_ns / (3600 * 1000000000) →
        betRate armed POINT_DECAY_RATES elapsed_ns = 1)) := by
  constructor
  · intro h
    subst h
    rfl
  · intro h
    subst h
    have harith : elapsed_ns / (60 * 60 * 1000000000) = elapsed_ns / (3600 * 1000000000) := by
      norm_num
    constructor
    · intro hlt
      rw [betRate, if_pos rfl, pointRate, harith]
      rw [dif_pos (show elapsed_ns / (3600 * 1000000000) < POINT_DECAY_RATES.length from hlt)]
      rw [List.getD_eq_getElem?_getD,
        List.getElem?_eq_getElem
          (show elapsed_ns / (3600 * 1000000000) <
            ([24, 23, 22, 21, 20, 19, 18, 17, 16, 15] : List Nat).length from hlt)]
      rfl
    · intro hge
      rw [betRate, if_pos rfl, pointRate, harith]
      rw [dif_neg (by simp [POINT_DECAY_RATES]; omega)]

/-- C7 witness: concrete instances of the schedule at zero hours, five hours
and twelve hours of elapsed time, and with the timer unarmed. -/
theorem point_rate_schedule_witness :
    betRate false POINT_DECAY_RATES 0 = 32 ∧
    betRate true POINT_DECAY_RATES 0 = 24 ∧
    betRate true POINT_DECAY_RATES (5 * 3600 * 1000000000) = 19 ∧
    betRate true POINT_DECAY_RATES (12 * 3600 * 1000000000) = 1 := by
  refine ⟨(point_rate_schedule false 0).1 rfl, ?_, ?_, ?_⟩
  · have h := ((point_rate_schedule true 0).2 rfl).1 (by norm_num)
    rw [h]
    rfl
  · have h := ((point_rate_schedule true (5 * 3600 * 1000000000)).2 rfl).1 (by norm_num)
    rw [h]
    rfl
  · exact ((point_rate_schedule true (12 * 3600 * 1000000000)).2 rfl).2 (by norm_num)

/-- C9: `end_game` requires the timer to be armed; it fails explicitly when
the two teams' total points are equal (a tie is never auto-resolved), and
otherwise declares the team with the lower total points the winner. -/
theorem end_game_requires_timer_tie_and_low_wins (caller : String) (s : ContractState) :
    (∀ s₂, end_game caller s = .ok s₂ → s.game_started = true) ∧
    ((caller = s.admin ∨ caller = s.timer_bot) → s.game_started = true →
      s.team_a_points = s.team_b_points →
      end_game caller s = .error "Tie - refund or extend") ∧
    (∀ s₂, end_game caller s = .ok s₂ →
      s.team_a_points ≠ s.team_b_points ∧
      s₂.winning_team = (if s.team_a_points < s.team_b_points then "A" else "B")) := by
  refine ⟨?_, ?_, ?_⟩
  · intro s₂ h
    unfold end_game at h
    split at h
    · exact absurd h (by simp)
    · split at h
      · exact absurd h (by simp)
      · rename_i _ hns
        exact not_not.mp hns
  · intro hc hst htie
    unfold end_game
    rw [if_neg (not_not.mpr hc), if_neg (not_not.mpr hst), if_pos htie]
  · intro s₂ h
    unfold end_game at h
    split at h
    · exact absurd h (by simp)
    · split at h
      · exact absurd h (by simp)
      · split at h
        · exact absurd h (by simp)
        · rename_i htie
          injection h with h
          subst h
          refine ⟨htie, ?_⟩
          have hframe : (distributePayouts
              { s with
                winning_team := if s.team_a_points < s.team_b_points then "A" else "B"
                game_active := false }).winning_team =
              (if s.team_a_points < s.team_b_points then "A" else "B") := rfl
          exact hframe

/-- A concrete armed state with team A at 1 point and team B at 2 points. -/
def c9DemoState : ContractState :=
  { initContract "adm" none with
    game_started := true, team_a_points := 1, team_b_points := 2 }

/-- The state `end_game` produces on `c9DemoState`. -/
def c9DemoAfter : ContractState :=
  match end_game "adm" c9DemoState with
  | .ok s => s
  | .error _ => c9DemoState

/-- C9 witness: on `c9DemoState`, `end_game` by the admin declares team A
(fewer points) the winner, and on the tied variant it fails with the tie
error. -/
theorem end_game_requires_timer_tie_and_low_wins_witness :
    end_game "adm"
      { initContract "adm" none with
        game_started := true, team_a_points := 3, team_b_points := 3 } =
      .error "Tie - refund or extend" ∧
    c9DemoAfter.winning_team = "A" := by
  constructor
  · exact (end_game_requires_timer_tie_and_low_wins "adm" _).2.1 (Or.inl rfl) rfl rfl
  · have h := ((end_game_requires_timer_tie_and_low_wins "adm" c9DemoState).2.2
      c9DemoAfter rfl).2
    rw [h]
    rfl

/-- C8: for every successful bet, the points credited equal
`floor(attached_value / unit) * rate` (truncating integer division, so a
sub-unit remainder earns zero points), while the full attached value,
including any sub-unit remainder, is added to the caller's `staked_amount`
and the team's total staked amount. -/
theorem bet_credits_points_and_full_stake (caller : String) (deposit ts : Nat)
    (team : String) (s s₂ : ContractState)
    (h : bet_on_team caller deposit ts team s = .ok s₂) :
    (team = "A" →
      dget? s₂.team_a_bets caller =
        some ⟨((dget? s.team_a_bets caller).map BetRecord.amount).getD 0 + deposit,
              ((dget? s.team_a_bets caller).map BetRecord.points).getD 0 +
                (deposit / ONE_NEAR) *
                  betRate s.game_started s.point_rates (ts - s.game_start_time)⟩ ∧
      s₂.team_a_total_amount = s.team_a_total_amount + deposit) ∧
    (team = "B" →
      dget? s₂.team_b_bets caller =
        some ⟨((dget? s.team_b_bets caller).map BetRecord.amount).getD 0 + deposit,
              ((dget? s.team_b_bets caller).map BetRecord.points).getD 0 +
                (deposit / ONE_NEAR) *
                  betRate s.game_started s.point_rates (ts - s.game_start_time)⟩ ∧
      s₂.team_b_total_amount = s.team_b_total_amount + deposit) := by
  unfold bet_on_team at h
  split at h
  · exact absurd h (by simp)
  · split at h
    · exact absurd h (by simp)
    · split at h
      · exact absurd h (by simp)
      · split at h
        · exact absurd h (by simp)
        · split at h
          · exact absurd h (by simp)
          · split at h
            · exact absurd h (by simp)
            · split at h
              · rename_i hteam
                injection h with h
                subst h
                obtain ⟨hab, hbb, _, _, _, hbt, _, _⟩ := maybeAutoStartTimer_frame ts _
                constructor
                · intro _
                  refine ⟨?_, ?_⟩
                  · rw [hab]
                    exact dget?_betUpsert_self _ _ _ _
                  · rw [(maybeAutoStartTimer_frame ts _).2.2.2.2.1]
                · intro htB
                  exact absurd (hteam ▸ htB) (by decide)
              · rename_i hor _ _ hteam
                have htB : team = "B" := by
                  rcases not_not.mp hor with hA | hB
                  · exact absurd hA hteam
                  · exact hB
                injection h with h
                subst h
                constructor
                · intro htA
                  exact absurd (htB ▸ htA) (by decide)
                · intro _
                  refine ⟨?_, ?_⟩
                  · rw [(maybeAutoStartTimer_frame ts _).2.1]
                    exact dget?_betUpsert_self _ _ _ _
                  · rw [(maybeAutoStartTimer_frame ts _).2.2.2.2.2.1]

/-- The state after a concrete 2-NEAR early-bird bet on team A. -/
def c8DemoState : ContractState :=
  { initContract "adm" none with game_active := true, pot_size := 10 }

/-- Result of `bet_on_team` on `c8DemoState`. -/
def c8DemoAfter : ContractState :=
  match bet_on_team "alice" (2 * ONE_NEAR) 0 "A" c8DemoState with
  | .ok s => s
  | .error _ => c8DemoState

/-- C8 witness: a fresh 2-NEAR bet at the early-bird rate credits
`(2 * 10^24 / 10^24) * 32 = 64` points and the full 2 NEAR of stake. -/
theorem bet_credits_points_and_full_stake_witness :
    dget? c8DemoAfter.team_a_bets "alice" = some ⟨2 * ONE_NEAR, 64⟩ ∧
    c8DemoAfter.team_a_total_amount = 2 * ONE_NEAR := by
  have h := (bet_credits_points_and_full_stake "alice" (2 * ONE_NEAR) 0 "A"
    c8DemoState c8DemoAfter rfl).1 rfl
  refine ⟨?_, ?_⟩
  · rw [h.1]
    decide
  · rw [h.2]
    decide

/-- C6: for every successful call to `throw_points`, the points moved equal
`floor(donor_points * percent / 100)`; success implies that amount is nonzero
and that the donor's record keeps at least 1 point after the move (the call
fails otherwise), and the moved amount is debited from the donor team's
aggregate points and credited to the opposing team's. -/
theorem throw_moves_floor_percent_and_keeps_one (caller : String) (ts : Nat)
    (percent : Int) (s s₂ : ContractState)
    (h : throw_points caller ts percent s = .ok s₂) :
    20 ≤ percent ∧ percent ≤ 90 ∧
    ((∃ r, dget? s.team_a_bets caller = some r ∧
        dget? s.team_b_bets caller = none ∧
        r.points * percent.toNat / 100 ≠ 0 ∧
        1 ≤ r.points - r.points * percent.toNat / 100 ∧
        dget? s₂.team_a_bets caller =
          some ⟨r.amount, r.points - r.points * percent.toNat / 100⟩ ∧
        s₂.team_a_points = s.team_a_points - r.points * percent.toNat / 100 ∧
        s₂.team_b_points = s.team_b_points + r.points * percent.toNat / 100) ∨
     (∃ r, dget? s.team_b_bets caller = some r ∧
        dget? s.team_a_bets caller = none ∧
        r.points * percent.toNat / 100 ≠ 0 ∧
        1 ≤ r.points - r.points * percent.toNat / 100 ∧
        dget? s₂.team_b_bets caller =
          some ⟨r.amount, r.points - r.points * percent.toNat / 100⟩ ∧
        s₂.team_b_points = s.team_b_points - r.points * percent.toNat / 100 ∧
        s₂.team_a_points = s.team_a_points + r.points * percent.toNat / 100)) := by
  unfold throw_points at h
  split at h
  · exact absurd h (by simp)
  · split at h
    · exact absurd h (by simp)
    · split at h
      · exact absurd h (by simp)
      · split at h
        · exact absurd h (by simp)
        · exact absurd h (by simp)
        · rename_i r ha hb
          split at h
          · exact absurd h (by simp)
          · rename_i pct hchk
            obtain ⟨hpct, hlo, hhi⟩ := throwChecks_ok _ _ _ _ _ hchk
            subst hpct
            dsimp only at h
            split at h
            · exact absurd h (by simp)
            · rename_i hvalid
              push_neg at hvalid
              injection h with h
              subst h
              refine ⟨hlo, hhi, Or.inl ⟨r, ha, hb, hvalid.1, by omega, ?_, rfl, rfl⟩⟩
              exact dget?_dset_self _ _ _
        · rename_i r ha hb
          split at h
          · exact absurd h (by simp)
          · rename_i pct hchk
            obtain ⟨hpct, hlo, hhi⟩ := throwChecks_ok _ _ _ _ _ hchk
            subst hpct
            dsimp only at h
            split at h
            · exact absurd h (by simp)
            · rename_i hvalid
              push_neg at hvalid
              injection h with h
              subst h
              refine ⟨hlo, hhi, Or.inr ⟨r, hb, ha, hvalid.1, by omega, ?_, rfl, rfl⟩⟩
              exact dget?_dset_self _ _ _

/-- An armed state in which alice holds 352 points on team A. -/
def c6DemoState : ContractState :=
  { initContract "adm" none with
    game_started := true
    team_a_bets := [("alice", ⟨2 * ONE_NEAR, 352⟩)]
    team_a_points := 352
    team_a_total_amount := 2 * ONE_NEAR }

/-- Result of a 70 percent throw by alice on `c6DemoState`. -/
def c6DemoAfter : ContractState :=
  match throw_points "alice" 0 70 c6DemoState with
  | .ok s => s
  | .error _ => c6DemoState

/-- C6 witness: throwing 70 percent of 352 points moves
`352 * 70 / 100 = 246` points and leaves the donor record with 106 ≥ 1. -/
theorem throw_moves_floor_percent_and_keeps_one_witness :
    dget? c6DemoAfter.team_a_bets "alice" = some ⟨2 * ONE_NEAR, 106⟩ ∧
    c6DemoAfter.team_b_points = 246 := by
  have h := (throw_moves_floor_percent_and_keeps_one "alice" 0 70
    c6DemoState c6DemoAfter rfl).2.2
  rcases h with ⟨r, hr, _, _, _, hrec, _, hbp⟩ | ⟨r, hr, _⟩
  · have hr352 : r = ⟨2 * ONE_NEAR, 352⟩ := by
      rw [show dget? c6DemoState.team_a_bets "alice" = some ⟨2 * ONE_NEAR, 352⟩ from rfl]
        at hr
      exact (Option.some.inj hr).symm
    subst hr352
    constructor
    · rw [hrec]
      decide
    · rw [hbp]
      decide
  · rw [show dget? c6DemoState.team_b_bets "alice" = none from rfl] at hr
    exact Option.noConfusion hr

/-- C10: `throw_points` checks only that the timer has been armed, not that a
game is currently active: in any state with `game_active = false` but
`game_started = true` (as left behind by `end_game` or
`force_end_game_refund`), a throw by an eligible caller within the time
window and quota still succeeds and mutates the per-team point aggregates. -/
theorem throw_succeeds_after_game_inactive (caller : String) (ts : Nat)
    (percent : Int) (s : ContractState) (r : BetRecord)
    (hactive : s.game_active = false)
    (hp : s.paused = false) (hst : s.game_started = true)
    (hban : dgetD s.banned_players caller false = false)
    (hA : dget? s.team_a_bets caller = some r)
    (hB : dget? s.team_b_bets caller = none)
    (hq : dgetD s.transfer_counts caller 0 < MAX_THROWS_PER_GAME)
    (hw : (ts - s.game_start_time) / (60 * 60 * 1000000000) < FIRST_WINDOW_HOURS)
    (hlo : 60 ≤ percent) (hhi : percent ≤ 90)
    (hmv : r.points * percent.toNat / 100 ≠ 0)
    (hkeep : 1 ≤ r.points - r.points * percent.toNat / 100) :
    ∃ s₂, throw_points caller ts percent s = .ok s₂ ∧
      s₂.game_active = false ∧
      s₂.team_a_points = s.team_a_points - r.points * percent.toNat / 100 ∧
      s₂.team_b_points = s.team_b_points + r.points * percent.toNat / 100 := by
  have hwin : throwWindow ((ts - s.game_start_time) / (60 * 60 * 1000000000)) =
      some (60, 90) := by
    unfold throwWindow
    rw [if_pos hw]
  have hchk : throwChecks caller ts percent s = .ok percent.toNat := by
    unfold throwChecks
    rw [if_neg (by omega), hwin]
    dsimp only
    rw [if_pos ⟨by exact_mod_cast hlo, by exact_mod_cast hhi⟩]
  refine ⟨{ s with
      team_a_bets := dset s.team_a_bets caller
        ⟨r.amount, r.points - r.points * percent.toNat / 100⟩
      team_a_points := s.team_a_points - r.points * percent.toNat / 100
      team_b_points := s.team_b_points + r.points * percent.toNat / 100
      transfer_counts := dset s.transfer_counts caller (dgetD s.transfer_counts caller 0 + 1)
      last_transfer_time := dset s.last_transfer_time caller ts },
    ?_, hactive, rfl, rfl⟩
  unfold throw_points
  rw [if_neg (by simp [hp]), if_neg (by simp [hst]), if_neg (by simp [hban]), hA, hB]
  dsimp only
  rw [hchk]
  dsimp only
  rw [if_neg (by push_neg; exact ⟨hmv, by omega⟩)]

/-- A post-game state: the game is inactive (as after `end_game`), the timer
is still armed, and alice holds 352 points on team A. -/
def c10DemoState : ContractState :=
  { initContract "adm" none with
    game_active := false
    game_started := true
    team_a_bets := [("alice", ⟨2 * ONE_NEAR, 352⟩)]
    team_a_points := 352
    team_a_total_amount := 2 * ONE_NEAR }

/-- C10 witness: alice's 70 percent throw succeeds on the inactive game and
moves 246 points to team B. -/
theorem throw_succeeds_after_game_inactive_witness :
    (throw_points "alice" 0 70 c10DemoState).isOk = true ∧
    (match throw_points "alice" 0 70 c10DemoState with
     | .ok s₂ => s₂.game_active = false ∧ s₂.team_b_points = 246
     | .error _ => False) := by
  obtain ⟨s₂, hok, hga, _, hbp⟩ := throw_succeeds_after_game_inactive
    "alice" 0 70 c10DemoState ⟨2 * ONE_NEAR, 352⟩
    rfl rfl rfl rfl rfl rfl (by decide) (by decide) (by decide) (by decide)
    (by decide) (by decide)
  rw [hok]
  exact ⟨rfl, hga, by rw [hbp]; rfl⟩

/-- The aggregate bookkeeping invariant of C1: each team's `..._points` and
`..._total_amount` counters equal the corresponding sums over that team's bet
records. -/
def teamInv (s : ContractState) : Prop :=
  s.team_a_points = sumPoints s.team_a_bets ∧
  s.team_b_points = sumPoints s.team_b_bets ∧
  s.team_a_total_amount = sumAmount s.team_a_bets ∧
  s.team_b_total_amount = sumAmount s.team_b_bets

theorem teamInv_maybeAuto (ts : Nat) (s : ContractState) :
    teamInv (maybeAutoStartTimer ts s) ↔ teamInv s := by
  obtain ⟨h1, h2, h3, h4, h5, h6, _, _⟩ := maybeAutoStartTimer_frame ts s
  unfold teamInv
  rw [h1, h2, h3, h4, h5, h6]

/-- An in-sync active armed state: alice holds 352 points on team A, both
teams' aggregates equal their record sums. -/
def c1CexState : ContractState :=
  { initContract "adm" none with
    game_active := true
    game_started := true
    team_a_bets := [("alice", ⟨2 * ONE_NEAR, 352⟩)]
    team_a_points := 352
    team_a_total_amount := 2 * ONE_NEAR }

/-- Result of a 70 percent throw by alice on `c1CexState`. -/
def c1CexAfter : ContractState :=
  match throw_points "alice" 0 70 c1CexState with
  | .ok s => s
  | .error _ => c1CexState

/-- C1 counterexample: starting from a state satisfying the aggregate
invariant, a successful `throw_points` leaves the recipient team's
`total_points` (246) different from the sum of that team's record points (0):
the thrown points are credited to team B's aggregate only, no team B record
is updated. -/
theorem throw_breaks_recipient_points_sum :
    teamInv c1CexState ∧
    (throw_points "alice" 0 70 c1CexState).isOk = true ∧
    c1CexAfter.team_b_points ≠ sumPoints c1CexAfter.team_b_bets := by
  refine ⟨⟨rfl, rfl, rfl, rfl⟩, rfl, ?_⟩
  decide

/-- C1 (amended): each team's `total_staked_amount` equals the sum of record
stakes after every operation, and `total_points` equals the sum of record
points after `bet_on_team`, `start_game`, `end_game` and
`force_end_game_refund`; after `throw_points` the donor team's points
equality is preserved while the recipient team's aggregate exceeds its record
sum by exactly the moved amount. -/
theorem aggregates_match_sums_with_thrown_excess (c : String) (d ts : Nat)
    (t : String) (p ps gd cr : Int) (s : ContractState) (hinv : teamInv s) :
    (∀ s₂, bet_on_team c d ts t s = .ok s₂ → teamInv s₂) ∧
    (∀ s₂, start_game c ps gd cr s = .ok s₂ → teamInv s₂) ∧
    (∀ s₂, end_game c s = .ok s₂ → teamInv s₂) ∧
    (∀ s₂, force_end_game_refund c s = .ok s₂ → teamInv s₂) ∧
    (∀ s₂, throw_points c ts p s = .ok s₂ →
      s₂.team_a_total_amount = sumAmount s₂.team_a_bets ∧
      s₂.team_b_total_amount = sumAmount s₂.team_b_bets ∧
      ((s₂.team_a_points = sumPoints s₂.team_a_bets ∧
        s₂.team_b_points =
          sumPoints s₂.team_b_bets + (s.team_a_points - s₂.team_a_points)) ∨
       (s₂.team_b_points = sumPoints s₂.team_b_bets ∧
        s₂.team_a_points =
          sumPoints s₂.team_a_bets + (s.team_b_points - s₂.team_b_points)))) := by
  obtain ⟨ha_pts, hb_pts, ha_amt, hb_amt⟩ := hinv
  refine ⟨?_, ?_, ?_, ?_, ?_⟩
  · intro s₂ h
    unfold bet_on_team at h
    iterate 6
      first
      | (split at h
         · exact absurd h (by simp))
    split at h <;>
      (injection h with h
       subst h
       rw [teamInv_maybeAuto]
       refine ⟨?_, ?_, ?_, ?_⟩ <;>
         simp only [sumPoints_betUpsert, sumAmount_betUpsert] <;>
         omega)
  · intro s₂ h
    unfold start_game at h
    iterate 6
      first
      | (split at h
         · exact absurd h (by simp))
    injection h with h
    subst h
    exact ⟨rfl, rfl, rfl, rfl⟩
  · intro s₂ h
    unfold end_game at h
    iterate 3
      first
      | (split at h
         · exact absurd h (by simp))
    injection h with h
    subst h
    obtain ⟨f1, f2, f3, f4, f5, f6⟩ := distributePayouts_frame
      { s with
        winning_team := if s.team_a_points < s.team_b_points then "A" else "B"
        game_active := false }
    exact ⟨f3 ▸ f1 ▸ ha_pts, f4 ▸ f2 ▸ hb_pts, f5 ▸ f1 ▸ ha_amt, f6 ▸ f2 ▸ hb_amt⟩
  · intro s₂ h
    unfold force_end_game_refund at h
    iterate 3
      first
      | (split at h
         · exact absurd h (by simp))
    injection h with h
    subst h
    exact ⟨ha_pts, hb_pts, ha_amt, hb_amt⟩
  · intro s₂ h
    unfold throw_points at h
    iterate 3
      first
      | (split at h
         · exact absurd h (by simp))
    split at h
    · exact absurd h (by simp)
    · exact absurd h (by simp)
    · rename_i r ha hb
      split at h
      · exact absurd h (by simp)
      · rename_i pct hchk
        dsimp only at h
        split at h
        · exact absurd h (by simp)
        · rename_i hvalid
          push_neg at hvalid
          injection h with h
          subst h
          have hle := points_le_sumPoints _ _ _ ha
          have hsum := sumPoints_dset s.team_a_bets c r
            ⟨r.amount, r.points - r.points * pct / 100⟩ ha
          have hamt := sumAmount_dset s.team_a_bets c r
            ⟨r.amount, r.points - r.points * pct / 100⟩ ha
          dsimp only at hsum hamt
          refine ⟨by dsimp only; omega, hb_amt, Or.inl ⟨?_, ?_⟩⟩ <;>
            dsimp only <;> omega
    · rename_i r ha hb
      split at h
      · exact absurd h (by simp)
      · rename_i pct hchk
        dsimp only at h
        split at h
        · exact absurd h (by simp)
        · rename_i hvalid
          push_neg at hvalid
          injection h with h
          subst h
          have hle := points_le_sumPoints _ _ _ hb
          have hsum := sumPoints_dset s.team_b_bets c r
            ⟨r.amount, r.points - r.points * pct / 100⟩ hb
          have hamt := sumAmount_dset s.team_b_bets c r
            ⟨r.amount, r.points - r.points * pct / 100⟩ hb
          dsimp only at hsum hamt
          refine ⟨ha_amt, by dsimp only; omega, Or.inr ⟨?_, ?_⟩⟩ <;>
            dsimp only <;> omega

/-- Result of `start_game` on a fresh contract. -/
def c1DemoAfter : ContractState :=
  match start_game "adm" 10 3600 10 (initContract "adm" none) with
  | .ok s => s
  | .error _ => initContract "adm" none

/-- C1 witness: the invariant holds concretely after `start_game` on a fresh
contract state. -/
theorem aggregates_match_sums_with_thrown_excess_witness : teamInv c1DemoAfter :=
  (aggregates_match_sums_with_thrown_excess "adm" 0 0 "A" 0 10 3600 10
    (initContract "adm" none) ⟨rfl, rfl, rfl, rfl⟩).2.1 c1DemoAfter rfl

/-- An idle state (no active game) in which alice has 5 yoctoNEAR pending in
the withdrawable ledger. -/
def c3State : ContractState :=
  { initContract "adm" none with withdrawable := [("alice", 5)] }

/-- Result of `start_game` on `c3State`. -/
def c3After : ContractState :=
  match start_game "adm" 10 3600 10 c3State with
  | .ok s => s
  | .error _ => c3State

/-- C3 failing input: `start_game` (line 152 of the source) resets the
`withdrawable` dict to `{}` along with the per-game entities, so alice's
pending balance of 5 is destroyed by a successful `start_game`, while the
ban list does persist. -/
theorem start_game_wipes_withdrawable :
    dgetD c3State.withdrawable "alice" 0 = 5 ∧
    (start_game "adm" 10 3600 10 c3State).isOk = true ∧
    dgetD c3After.withdrawable "alice" 0 = 0 ∧
    c3After.banned_players = c3State.banned_players :=
  ⟨rfl, rfl, rfl, rfl⟩

/-- An armed two-player state ready to be settled: the winner-to-be "w"
staked 1 NEAR on team A (1 point), "l" staked 1 NEAR on team B (2 points),
pot 1 NEAR, commission 10 percent. -/
def c4State : ContractState :=
  { initContract "adm" none with
    game_active := true
    game_started := true
    pot_size := 1
    commission_rate := 10
    team_a_bets := [("w", ⟨ONE_NEAR, 1⟩)]
    team_a_points := 1
    team_a_total_amount := ONE_NEAR
    team_b_bets := [("l", ⟨ONE_NEAR, 2⟩)]
    team_b_points := 2
    team_b_total_amount := ONE_NEAR }

/-- State after the first `end_game` on `c4State`. -/
def c4After1 : ContractState :=
  match end_game "adm" c4State with
  | .ok s => s
  | .error _ => c4State

/-- State after a second `end_game` on `c4After1`. -/
def c4After2 : ContractState :=
  match end_game "adm" c4After1 with
  | .ok s => s
  | .error _ => c4After1

/-- C4 failing input: `end_game` checks `game_started` but never
`game_active`, and a settlement resets neither, so after a successful
`end_game` a second call by the admin succeeds again and credits the winner
payout and the admin commission a second time (the winner's pending balance
doubles from 2 NEAR to 4 NEAR, the commission from 0.1 to 0.2 NEAR). -/
theorem end_game_replay_double_pays :
    (end_game "adm" c4State).isOk = true ∧
    (end_game "adm" c4After1).isOk = true ∧
    dgetD c4After1.withdrawable "w" 0 = 2 * ONE_NEAR ∧
    dgetD c4After2.withdrawable "w" 0 = 4 * ONE_NEAR ∧
    dgetD c4After1.withdrawable "adm" 0 = ONE_NEAR / 10 ∧
    dgetD c4After2.withdrawable "adm" 0 = 2 * (ONE_NEAR / 10) := by
  refine ⟨rfl, rfl, ?_, ?_, ?_, ?_⟩ <;> decide

/-- An armed state where the winning side's stake (100 NEAR) dwarfs the
claimed settlement bound: pot 1 NEAR, commission 10 percent, losing side
staked only 0.5 NEAR. -/
def c2State : ContractState :=
  { initContract "adm" none with
    game_active := true
    game_started := true
    pot_size := 1
    commission_rate := 10
    team_a_bets := [("w", ⟨100 * ONE_NEAR, 1⟩)]
    team_a_points := 1
    team_a_total_amount := 100 * ONE_NEAR
    team_b_bets := [("l", ⟨ONE_NEAR / 2, 2⟩)]
    team_b_points := 2
    team_b_total_amount := ONE_NEAR / 2 }

/-- Result of `end_game` on `c2State`. -/
def c2After : ContractState :=
  match end_game "adm" c2State with
  | .ok s => s
  | .error _ => c2State

/-- C2 counterexample: a settlement on `c2State` credits
`100 + 1 + 0.1 = 101.1` NEAR to the ledger (winner payouts include the
winners' own stakes back), exceeding the claimed bound
`pot_value + commission + losing_team_total_staked = 1.6` NEAR. -/
theorem settlement_exceeds_claimed_bound :
    sumW c2State.withdrawable = 0 ∧
    (end_game "adm" c2State).isOk = true ∧
    c2State.pot_size * ONE_NEAR +
        c2State.pot_size * ONE_NEAR * c2State.commission_rate / 100 +
        sumAmount c2State.team_b_bets <
      sumW c2After.withdrawable := by
  refine ⟨rfl, rfl, ?_⟩
  decide

theorem sumW_creditWinners (bets : BetsMap) (P pot : Nat) (w : Ledger) :
    sumW (creditWinners bets P pot w) =
      sumW w + (bets.map (fun ub => ub.2.amount + winnerShare P pot ub.2)).sum :=
  sumW_foldl_credit (fun ub => ub.2.amount + winnerShare P pot ub.2) bets w

theorem sumW_creditLosers (bets : BetsMap) (T L : Nat) (w : Ledger) :
    sumW (creditLosers bets T L w) =
      sumW w + (bets.map (fun ub => loserRefund T L ub.2)).sum :=
  sumW_foldl_credit (fun ub => loserRefund T L ub.2) bets w

theorem sumW_distributePayouts (s : ContractState) :
    sumW (distributePayouts s).withdrawable ≤ sumW s.withdrawable +
      sumAmount (if s.winning_team = "A" then s.team_a_bets else s.team_b_bets) +
      s.pot_size * ONE_NEAR + s.pot_size * ONE_NEAR * s.commission_rate / 100 +
      sumAmount (if s.winning_team = "B" then s.team_a_bets else s.team_b_bets) := by
  unfold distributePayouts
  dsimp only
  rw [sumW_creditW]
  set win_bets := if s.winning_team = "A" then s.team_a_bets else s.team_b_bets with hwb
  set lose_bets := if s.winning_team = "B" then s.team_a_bets else s.team_b_bets with hlb
  have hwin : sumW (creditWinners win_bets (sumPoints win_bets)
      (s.pot_size * ONE_NEAR) s.withdrawable) ≤
      sumW s.withdrawable + sumAmount win_bets + s.pot_size * ONE_NEAR := by
    rw [sumW_creditWinners, List.sum_map_add]
    have := shares_sum_le_pot win_bets (s.pot_size * ONE_NEAR)
    unfold sumAmount
    omega
  split
  · rw [sumW_creditLosers]
    have := refunds_sum_le lose_bets
      (s.pot_size * ONE_NEAR + s.pot_size * ONE_NEAR * s.commission_rate / 100)
      (sumAmount lose_bets)
    omega
  · omega

/-- C2 (amended): the total amount a settlement credits to the withdrawable
ledger never exceeds `winning_team_total_staked + pot_value + commission +
losing_team_total_staked` (the original bound omitted the winners' own
stakes, which every winner payout returns). -/
theorem settlement_bounded_with_winner_stakes (caller : String)
    (s s₂ : ContractState) (h : end_game caller s = .ok s₂) :
    sumW s₂.withdrawable ≤ sumW s.withdrawable +
      sumAmount (if s.team_a_points < s.team_b_points
        then s.team_a_bets else s.team_b_bets) +
      s.pot_size * ONE_NEAR + s.pot_size * ONE_NEAR * s.commission_rate / 100 +
      sumAmount (if s.team_a_points < s.team_b_points
        then s.team_b_bets else s.team_a_bets) := by
  unfold end_game at h
  iterate 3
    first
    | (split at h
       · exact absurd h (by simp))
  injection h with h
  subst h
  have hb := sumW_distributePayouts
    { s with
      winning_team := if s.team_a_points < s.team_b_points then "A" else "B"
      game_active := false }
  by_cases hab : s.team_a_points < s.team_b_points
  · rw [if_pos hab] at hb
    dsimp only at hb
    rw [if_pos rfl, if_neg (show ¬ ("A" : String) = "B" by decide)] at hb
    simp only [if_pos hab]
    exact hb
  · rw [if_neg hab] at hb
    dsimp only at hb
    rw [if_neg (show ¬ ("B" : String) = "A" by decide), if_pos rfl] at hb
    simp only [if_neg hab]
    exact hb

/-- C2 witness: the amended bound instantiated on the concrete settlement of
`c2State`: 101.1 NEAR credited ≤ 100 + 1 + 0.1 + 0.5 NEAR. -/
theorem settlement_bounded_with_winner_stakes_witness :
    sumW c2After.withdrawable ≤ sumW c2State.withdrawable +
      sumAmount (if c2State.team_a_points < c2State.team_b_points
        then c2State.team_a_bets else c2State.team_b_bets) +
      c2State.pot_size * ONE_NEAR +
      c2State.pot_size * ONE_NEAR * c2State.commission_rate / 100 +
      sumAmount (if c2State.team_a_points < c2State.team_b_points
        then c2State.team_b_bets else c2State.team_a_bets) :=
  settlement_bounded_with_winner_stakes "adm" c2State c2After rfl

theorem dget?_eq_none_forall {α : Type} (d : List (String × α)) (u : String)
    (h : dget? d u = none) : ∀ kv ∈ d, kv.1 ≠ u := by
  induction d with
  | nil => intro kv hkv; cases hkv
  | cons kv rest ih =>
      obtain ⟨k, v⟩ := kv
      by_cases hk : k = u
      · rw [hk, dget?_cons_self] at h
        cases h
      · rw [dget?_cons_ne _ _ _ _ hk] at h
        intro x hx
        rcases List.mem_cons.mp hx with hx | hx
        · rw [hx]
          exact hk
        · exact ih h x hx

theorem getW_creditWinners_notmem (bets : BetsMap) (P pot : Nat) (w : Ledger)
    (uid : String) (h : dget? bets uid = none) :
    dgetD (creditWinners bets P pot w) uid 0 = dgetD w uid 0 :=
  getW_foldl_credit_notmem _ bets w uid (dget?_eq_none_forall bets uid h)

theorem getW_creditLosers_mem (bets : BetsMap) (T L : Nat) (w : Ledger)
    (uid : String) (r : BetRecord) (hnd : (bets.map Prod.fst).Nodup)
    (hr : dget? bets uid = some r) :
    dgetD (creditLosers bets T L w) uid 0 = dgetD w uid 0 + loserRefund T L r :=
  getW_foldl_credit_mem _ bets w uid r hnd hr

theorem getW_distributePayouts_loser (s : ContractState) (uid : String)
    (r : BetRecord) (hadm : uid ≠ s.admin)
    (hw : dget? (if s.winning_team = "A" then s.team_a_bets else s.team_b_bets)
      uid = none)
    (hnd : ((if s.winning_team = "B" then s.team_a_bets else s.team_b_bets).map
      Prod.fst).Nodup)
    (hr : dget? (if s.winning_team = "B" then s.team_a_bets else s.team_b_bets)
      uid = some r) :
    dgetD (distributePayouts s).withdrawable uid 0 =
      dgetD s.withdrawable uid 0 +
      (if s.pot_size * ONE_NEAR + s.pot_size * ONE_NEAR * s.commission_rate / 100 ≤
          sumAmount (if s.winning_team = "B" then s.team_a_bets else s.team_b_bets)
       then loserRefund
          (s.pot_size * ONE_NEAR + s.pot_size * ONE_NEAR * s.commission_rate / 100)
          (sumAmount (if s.winning_team = "B" then s.team_a_bets else s.team_b_bets)) r
       else 0) := by
  unfold distributePayouts
  dsimp only
  rw [getW_creditW_ne _ _ _ _ hadm]
  by_cases hA : s.winning_team = "A" <;> by_cases hB : s.winning_team = "B"
  · exact absurd (hA ▸ hB) (by decide)
  · simp only [if_pos hA, if_neg hB] at hw hnd hr ⊢
    split
    · rw [getW_creditLosers_mem _ _ _ _ _ _ hnd hr,
        getW_creditWinners_notmem _ _ _ _ _ hw]
    · rw [getW_creditWinners_notmem _ _ _ _ _ hw]
      omega
  · simp only [if_neg hA, if_pos hB] at hw hnd hr ⊢
    split
    · rw [getW_creditLosers_mem _ _ _ _ _ _ hnd hr,
        getW_creditWinners_notmem _ _ _ _ _ hw]
    · rw [getW_creditWinners_notmem _ _ _ _ _ hw]
      omega
  · simp only [if_neg hA, if_neg hB] at hw hnd hr ⊢
    split
    · rw [getW_creditLosers_mem _ _ _ _ _ _ hnd hr,
        getW_creditWinners_notmem _ _ _ _ _ hw]
    · rw [getW_creditWinners_notmem _ _ _ _ _ hw]
      omega

/-- C5: during settlement, loser refunds are computed only if the losing
team's total staked amount is at least `total_payable_from_losers =
pot_value + commission`; in that case each losing bet record is credited
`refund = staked_amount - staked_amount * total_payable_from_losers /
losing_team_total_staked` (`loserRefund`); if the losing total is below the
threshold, no loser refund is credited at all. -/
theorem loser_refunds_only_when_losers_cover (caller uid : String)
    (s s₂ : ContractState) (r : BetRecord)
    (h : end_game caller s = .ok s₂)
    (hnd : ((if s.team_a_points < s.team_b_points
      then s.team_b_bets else s.team_a_bets).map Prod.fst).Nodup)
    (hr : dget? (if s.team_a_points < s.team_b_points
      then s.team_b_bets else s.team_a_bets) uid = some r)
    (hw : dget? (if s.team_a_points < s.team_b_points
      then s.team_a_bets else s.team_b_bets) uid = none)
    (hadm : uid ≠ s.admin) :
    dgetD s₂.withdrawable uid 0 = dgetD s.withdrawable uid 0 +
      (if s.pot_size * ONE_NEAR + s.pot_size * ONE_NEAR * s.commission_rate / 100 ≤
          sumAmount (if s.team_a_points < s.team_b_points
            then s.team_b_bets else s.team_a_bets)
       then loserRefund
          (s.pot_size * ONE_NEAR + s.pot_size * ONE_NEAR * s.commission_rate / 100)
          (sumAmount (if s.team_a_points < s.team_b_points
            then s.team_b_bets else s.team_a_bets)) r
       else 0) := by
  unfold end_game at h
  iterate 3
    first
    | (split at h
       · exact absurd h (by simp))
  injection h with h
  subst h
  by_cases hab : s.team_a_points < s.team_b_points
  · simp only [if_pos hab] at hnd hr hw ⊢
    have hh := getW_distributePayouts_loser
      { s with winning_team := "A", game_active := false } uid r
      hadm
      (by dsimp only; rw [if_pos rfl]; exact hw)
      (by dsimp only; rw [if_neg (show ¬ ("A" : String) = "B" by decide)]; exact hnd)
      (by dsimp only; rw [if_neg (show ¬ ("A" : String) = "B" by decide)]; exact hr)
    dsimp only at hh
    rw [if_neg (show ¬ ("A" : String) = "B" by decide)] at hh
    exact hh
  · simp only [if_neg hab] at hnd hr hw ⊢
    have hh := getW_distributePayouts_loser
      { s with winning_team := "B", game_active := false } uid r
      hadm
      (by dsimp only; rw [if_neg (show ¬ ("B" : String) = "A" by decide)]; exact hw)
      (by dsimp only; rw [if_pos rfl]; exact hnd)
      (by dsimp only; rw [if_pos rfl]; exact hr)
    dsimp only at hh
    rw [if_pos rfl] at hh
    exact hh

/-- An armed state whose losing side ("l", 2 NEAR, 5 points on team B) can
cover `pot + commission = 1.1` NEAR. -/
def c5State : ContractState :=
  { initContract "adm" none with
    game_active := true
    game_started := true
    pot_size := 1
    commission_rate := 10
    team_a_bets := [("w", ⟨ONE_NEAR, 1⟩)]
    team_a_points := 1
    team_a_total_amount := ONE_NEAR
    team_b_bets := [("l", ⟨2 * ONE_NEAR, 5⟩)]
    team_b_points := 5
    team_b_total_amount := 2 * ONE_NEAR }

/-- Result of `end_game` on `c5State`. -/
def c5After : ContractState :=
  match end_game "adm" c5State with
  | .ok s => s
  | .error _ => c5State

/-- C5 witness: on `c5State` the losing bettor is refunded
`2 - 2 * 1.1 / 2 = 0.9` NEAR, and on `c4State` (losing side stakes only
1 NEAR < 1.1 NEAR) the losing bettor is refunded nothing. -/
theorem loser_refunds_only_when_losers_cover_witness :
    dgetD c5After.withdrawable "l" 0 = 9 * 10 ^ 23 ∧
    dgetD c4After1.withdrawable "l" 0 = 0 := by
  constructor
  · have hh := loser_refunds_only_when_losers_cover "adm" "l" c5State c5After
      ⟨2 * ONE_NEAR, 5⟩ rfl (by decide) rfl rfl (by decide)
    rw [hh]
    decide
  · have hh := loser_refunds_only_when_losers_cover "adm" "l" c4State c4After1
      ⟨ONE_NEAR, 2⟩ rfl (by decide) rfl rfl (by decide)
    rw [hh]
    decide

end Nexora
